import Mathlib

/-!
Verification of the interLink Slurm sidecar (package `slurm`): a shallow
embedding of the pure/string-building parts of `aux.go`, `SubmitHandler`
and `StatusHandler`, with theorems checking the stated properties of
submit parsing, script synthesis, registry recovery, deletion and the
status poll cycle. External processes (sbatch, squeue, scancel), the
filesystem and `time.Parse` are modelled as explicit parameters; a Go
panic (nil dereference, out-of-range index) is modelled as `Option.none`.
-/

namespace InterLinkSlurm

/-! ## Basic string helpers mirroring the Go standard library -/

/-- Model of checking that the character list `pre` is an initial segment of `s`
(the core of strings.HasPrefix). -/
def listStarts : List Char → List Char → Bool
  | [], _ => true
  | _ :: _, [] => false
  | a :: as, b :: bs => a = b && listStarts as bs

/-- Go strings.HasPrefix s pre. -/
def goHasPfx (s pre : String) : Bool := listStarts pre.data s.data

/-- Model of a substring occurrence test over character lists. -/
def listContainsSeg (pat : List Char) : List Char → Bool
  | [] => listStarts pat []
  | c :: rest => listStarts pat (c :: rest) || listContainsSeg pat rest

/-- Go strings.Contains s pat. -/
def strContains (s pat : String) : Bool := listContainsSeg pat.data s.data

/-- Go strings.ReplaceAll s "\n" "": drop every newline character. -/
def removeNewlines (s : String) : String := ⟨s.data.filter (fun c => c ≠ '\n')⟩

/-- Split a character list at every character satisfying p, keeping empty
fields (the semantics of Go strings.Split with a one-character separator). -/
def splitOn (p : Char → Bool) : List Char → List String
  | [] => [""]
  | c :: rest =>
    let fields := splitOn p rest
    if p c then "" :: fields
    else
      match fields with
      | [] => [⟨[c]⟩]
      | f :: fs => ⟨c :: f.data⟩ :: fs

/-- Go strings.Split s " ": split at every single space, keeping empty fields. -/
def goSplitSpace (s : String) : List String := splitOn (fun c => c = ' ') s.data

/-- Go strings.Fields: split around runs of whitespace, no empty fields. -/
def goFields (s : String) : List String :=
  (splitOn (fun c => c.isWhitespace) s.data).filter (fun t => t ≠ "")

/-- Accumulate decimal digits into a natural number. -/
def digitsToNat (ds : List Char) : Nat :=
  ds.foldl (fun acc c => acc * 10 + (c.toNat - 48)) 0

/-- Go strconv.Atoi: optional sign, then decimal digits covering the whole
string; errors (modelled as `none`) on an empty or malformed string and on
values outside the 64-bit signed range. -/
def goAtoi (s : String) : Option Int :=
  match s.data with
  | [] => none
  | c :: rest =>
    let signAndDigits : Int × List Char :=
      if c = '+' then (1, rest)
      else if c = '-' then (-1, rest)
      else (1, c :: rest)
    match signAndDigits with
    | (sign, digits) =>
      if digits = [] then none
      else if digits.all Char.isDigit then
        let v : Int := sign * (digitsToNat digits : Int)
        if v < -(2 ^ 63) ∨ v > 2 ^ 63 - 1 then none else some v
      else none

/-- Go int32 conversion: wrap a (64-bit) integer into the signed 32-bit range. -/
def int32wrap (n : Int) : Int := (n + 2 ^ 31) % 2 ^ 32 - 2 ^ 31

/-! ## Registry: the in-memory pod UID to job record mapping -/

/-- JidStruct from aux.go: registry record linking a pod UID to a Slurm job id,
with observed lifecycle instants (0 is the zero instant). -/
structure JidStruct where
  podUID : String
  jid : String
  startTime : Int
  endTime : Int
  deriving Repr, DecidableEq

/-- Go map read JIDs[uid]: first match in the association list. -/
def lookupJID : List (String × JidStruct) → String → Option JidStruct
  | [], _ => none
  | (k, v) :: rest, uid => if k = uid then some v else lookupJID rest uid

/-- Go map assignment JIDs[uid] = rec. -/
def insertJID (uid : String) (rec : JidStruct) :
    List (String × JidStruct) → List (String × JidStruct)
  | [] => [(uid, rec)]
  | (k, v) :: rest =>
    if k = uid then (uid, rec) :: rest else (k, v) :: insertJID uid rec rest

/-- removeJID from aux.go: Go delete(JIDs, uid). -/
def removeKey (uid : String) :
    List (String × JidStruct) → List (String × JidStruct)
  | [] => []
  | (k, v) :: rest =>
    if k = uid then removeKey uid rest else (k, v) :: removeKey uid rest

/-- Generic association-list lookup for pod annotations (a Go map read). -/
def lookupKey : List (String × String) → String → Option String
  | [], _ => none
  | (k, v) :: rest, key => if k = key then some v else lookupKey rest key

/-! ## prepareEnvs (aux.go lines 129-151) -/

/-- One entry of a container Env list. -/
structure EnvVar where
  name : String
  value : String
  deriving Repr, DecidableEq

/-- The env_data accumulation loop of prepareEnvs: for each entry append
name=value followed by a comma. -/
def envData : List EnvVar → String → String
  | [], acc => acc
  | e :: rest, acc => envData rest (acc ++ (e.name ++ "=" ++ e.value ++ ","))

/-- The trailing-comma strip of prepareEnvs and prepareMounts: drop the last
character when the string is nonempty and ends in a comma. -/
def stripComma (s : String) : String :=
  if s.data ≠ [] ∧ s.data.getLast? = some ',' then ⟨s.data.dropLast⟩ else s

/-- prepareEnvs from aux.go. Note make([]string, 1) creates a slice already
holding one empty string, so the later appends produce a leading "" token. -/
def prepareEnvs (env : List EnvVar) : List String :=
  if env.length > 0 then
    let envList : List String := [""]
    let envList := envList ++ ["--env"]
    let ed := envData env ""
    let ed := stripComma ed
    let envList := if ed = "" then ([] : List String) else envList
    envList ++ [ed]
  else []

/-- The comma-joined env token as the spec describes it: NAME1=V1,NAME2=V2,...
in list order with no trailing comma. -/
def joinEnvs : List EnvVar → String
  | [] => ""
  | [e] => e.name ++ "=" ++ e.value
  | e :: f :: rest => e.name ++ "=" ++ e.value ++ "," ++ joinEnvs (f :: rest)

/-! ## Image token selection (SubmitHandler, part_000 lines 70-79) -/

/-- The image assignment of SubmitHandler: start from the container Image;
when it begins with "/" and the image-root annotation is present, prepend the
annotation value; otherwise keep Image verbatim. -/
def submitImage (image : String) (annotations : List (String × String)) : String :=
  if goHasPfx image "/" then
    match lookupKey annotations "slurm-job.vk.io/image-root" with
    | some imageUri => imageUri ++ image
    | none => image
  else image

/-! ## produceSLURMScript (aux.go lines 241-358): the script text -/

/-- SingularityCommand from aux.go: the container name and its argv. -/
structure SingularityCommand where
  containerName : String
  command : List String
  deriving Repr, DecidableEq

/-- The configuration fields produceSLURMScript reads. -/
structure SlurmConfig where
  bashPath : String
  tsocks : Bool
  tsockslogin : String
  tsockspath : String
  commandPfx : String
  deriving Repr

/-- The mpi-flags loop of produceSLURMScript. The Go source ranges over the
commands slice by value and assigns the mpiexec-extended argv to the field of
the per-iteration copy; the copy is dropped at the end of each iteration, so
the slice the caller passed is unchanged when the loop finishes. -/
def mpiLoopGo (annotations : List (String × String))
    (commands : List SingularityCommand) : List SingularityCommand :=
  match lookupKey annotations "slurm-job.vk.io/mpi-flags" with
  | some mpiFlags =>
    if mpiFlags ≠ "true" then
      let mpi := ["mpiexec", "-np", "$SLURM_NTASKS"] ++ goSplitSpace mpiFlags
      let _discarded := commands.map
        (fun singularityCommand =>
          { singularityCommand with command := mpi ++ singularityCommand.command })
      commands
    else commands
  | none => commands

/-- Modelled from the spec: the MPI wrapping produceSLURMScript is documented
to perform (spec section 4.5) — when annotation slurm-job.vk.io/mpi-flags is
set and not literally "true", prepend mpiexec -np $SLURM_NTASKS and the
space-separated flags to every container invocation. -/
def mpiWrapSpec (annotations : List (String × String))
    (commands : List SingularityCommand) : List SingularityCommand :=
  match lookupKey annotations "slurm-job.vk.io/mpi-flags" with
  | some mpiFlags =>
    if mpiFlags ≠ "true" then
      let mpi := ["mpiexec", "-np", "$SLURM_NTASKS"] ++ goSplitSpace mpiFlags
      commands.map
        (fun singularityCommand =>
          { singularityCommand with command := mpi ++ singularityCommand.command })
    else commands
  | none => commands

/-- The tsocks block appended to the script prefix when config.Tsocks is set
(aux.go lines 301-315). -/
def tsocksPfxBlock (podUID login tsPath : String) : String :=
  "\n\nmin_port=10000" ++
  "\nmax_port=65000" ++
  "\nfor ((port=$min_port; port<=$max_port; port++))" ++
  "\ndo" ++
  "\n  temp=$(ss -tulpn | grep :$port)" ++
  "\n  if [ -z \"$temp\" ]" ++
  "\n  then" ++
  "\n    break" ++
  "\n  fi" ++
  "\ndone" ++
  "\nssh -4 -N -D $port " ++ login ++ " &" ++
  "\nSSH_PID=$!" ++
  "\necho \"local = 10.0.0.0/255.0.0.0 \nserver = 127.0.0.1 \nserver_port = $port\" >> .tmp/" ++
  podUID ++ "_tsocks.conf" ++
  "\nexport TSOCKS_CONF_FILE=.tmp/" ++ podUID ++ "_tsocks.conf && export LD_PRELOAD=" ++ tsPath

/-- One per-container invocation line of job.sh (aux.go lines 340-344),
including its leading newline. -/
def commandLine (path : String) (c : SingularityCommand) : String :=
  "\n" ++ String.intercalate " " c.command ++
  " &> " ++ path ++ "/" ++ c.containerName ++ ".out; " ++
  "echo $? > " ++ path ++ "/" ++ c.containerName ++ ".status &"

/-- The string produceSLURMScript writes into job.sh, given the value of the
package-level prefix accumulator at entry. File creation and chmod are
abstracted; the function returns the exact file content. -/
def produceSLURMScriptString (config : SlurmConfig) (path podUID : String)
    (annotations : List (String × String)) (pfx0 : String)
    (commands : List SingularityCommand) : String :=
  let postStr := ""
  let sbatchFlagsFromArgo :=
    match lookupKey annotations "slurm-job.vk.io/flags" with
    | some slurmFlags => goSplitSpace slurmFlags
    | none => []
  let commands := mpiLoopGo annotations commands
  let sbatchFlagsAsString :=
    sbatchFlagsFromArgo.foldl (fun acc fl => acc ++ "\n#SBATCH " ++ fl) ""
  let (pfx, postStr) :=
    if config.tsocks then
      (pfx0 ++ tsocksPfxBlock podUID config.tsockslogin config.tsockspath,
       postStr ++ "\n\nkill -15 $SSH_PID &> log2.txt")
    else (pfx0, postStr)
  let pfx := if config.commandPfx ≠ "" then pfx ++ "\n" ++ config.commandPfx else pfx
  let pfx :=
    match lookupKey annotations "job.vk.io/pre-exec" with
    | some preExec => pfx ++ "\n" ++ preExec
    | none => pfx
  let sbatchMacros :=
    "#!" ++ config.bashPath ++
    "\n#SBATCH --job-name=" ++ podUID ++
    "\n#SBATCH --output=" ++ path ++ "/job.out" ++
    sbatchFlagsAsString ++
    "\n" ++ pfx ++ "\n"
  let body := commands.foldl (fun acc c => acc ++ commandLine path c) ""
  sbatchMacros ++ body ++ "\n" ++ postStr

/-! ## SLURMBatchSubmit and handleJID (aux.go lines 360-403) -/

/-- SLURMBatchSubmit, with the result of running sbatch passed in as
(stdout, stderr, executor error). Returns the stdout with newlines stripped,
or an error when the executor failed or stderr is non-empty. -/
def SLURMBatchSubmit (execStdout execStderr : String) (execErr : Bool) :
    Except String String :=
  if execErr then Except.error "executor error"
  else
    let out := removeNewlines execStdout
    if execStderr ≠ "" then Except.error execStderr
    else Except.ok out

/-- Try to match the regex Submitted batch job (\d+) at the head of the list:
the literal must be an initial segment followed by at least one digit; the
greedy capture takes the maximal digit run. -/
def matchSubmittedAt (cs : List Char) : Option String :=
  let lit := "Submitted batch job ".data
  if listStarts lit cs then
    let ds := (cs.drop lit.length).takeWhile Char.isDigit
    if ds = [] then none else some ⟨ds⟩
  else none

/-- Leftmost match of Submitted batch job (\d+) in the list, returning the
captured digit group (regexp.FindStringSubmatch component 1). -/
def findSubmittedIn : List Char → Option String
  | [] => none
  | c :: rest =>
    match matchSubmittedAt (c :: rest) with
    | some d => some d
    | none => findSubmittedIn rest

/-- FindStringSubmatch of the compiled regex over a string: the captured digit
group of the leftmost match, or none when the output does not match. -/
def findSubmittedBatchJob (output : String) : Option String :=
  findSubmittedIn output.data

/-- handleJID from aux.go. On a match it writes the captured group into
JobID.jid and stores the record in the registry; the result carries the new
registry, the file path written and the file content. When the regex does not
match, FindStringSubmatch returns a nil slice and the index expression jid[1]
panics: that crash is modelled as none. -/
def handleJID (podUID output path : String)
    (jids : List (String × JidStruct)) :
    Option (List (String × JidStruct) × String × String) :=
  match findSubmittedBatchJob output with
  | none => none
  | some jid =>
    some (insertJID podUID ⟨podUID, jid, 0, 0⟩ jids, path ++ "/JobID.jid", jid)

/-! ## deleteContainer (aux.go lines 409-425) -/

/-- Go os.RemoveAll tgt over a filesystem modelled as the list of existing
paths: every path equal to tgt or lying strictly below it is removed. -/
def removeAllFS (tgt : String) (fs : List String) : List String :=
  fs.filter (fun q => !(q = tgt || listStarts (tgt ++ "/").data q.data))

/-- deleteContainer from aux.go, with the scancel outcome passed in as a
predicate on the job id (true means the command returned an error). The
expression JIDs[podUID].JID dereferences a nil pointer when the registry has
no entry for podUID: that crash is modelled as none. On a scancel error the
function returns the error before touching the filesystem or the registry;
on success it removes the tree path/podUID and evicts the registry entry.
The Bool in the result is the error flag. -/
def deleteContainer (scancelFails : String → Bool) (podUID path : String)
    (jids : List (String × JidStruct)) (fs : List String) :
    Option (List (String × JidStruct) × List String × Bool) :=
  match lookupJID jids podUID with
  | none => none
  | some rec =>
    if scancelFails rec.jid then
      some (jids, fs, true)
    else
      some (removeKey podUID jids, removeAllFS (path ++ "/" ++ podUID) fs, false)

/-! ## StatusHandler (part_001): rate limiting, per-pod query, Branch B -/

/-- The rate-limiting skeleton of StatusHandler (part_001 lines 38 and
250-255). Inputs: the arrival instant of the call, the instant the last full
cycle completed (the package-level timer), the cached response, and the
outcome of a full poll cycle as (responses, completion instant). Output:
(response served, new timer, new cached response, whether squeue ran).
Instants are nanoseconds; the window is time.Second * 10. -/
def statusHandlerStep {α : Type} (timeNow timer : Int) (cachedStatus : α)
    (pollCycle : α × Int) : α × Int × α × Bool :=
  if timeNow - timer ≥ 10 * 1000000000 then
    (pollCycle.1, pollCycle.2, pollCycle.1, true)
  else
    (cachedStatus, timer, cachedStatus, false)

/-- The per-pod squeue argv built by StatusHandler (part_001 line 69):
JIDs[uid].JID is read without an existence check, so a missing registry
entry yields a nil record and the field access panics (modelled as none). -/
def statusPodQuery (jids : List (String × JidStruct)) (uid : String) :
    Option (List String) :=
  match lookupJID jids uid with
  | none => none
  | some rec => some ["--noheader", "-a", "-j " ++ rec.jid]

/-- The per-pod loop of a poll cycle, restricted to building the per-pod squeue
argv: the cycle survives exactly when every requested pod UID resolves in the
registry; the first missing entry crashes the handler (none). -/
def statusPollPods (jids : List (String × JidStruct)) :
    List String → Option (List (List String))
  | [] => some []
  | uid :: rest =>
    match statusPodQuery jids uid with
    | none => none
    | some cmd =>
      match statusPollPods jids rest with
      | none => none
      | some cmds => some (cmd :: cmds)

/-- A container status emitted by Branch B: the container name and the
terminated exit code (ContainerStateTerminated.ExitCode). -/
structure ContainerStatusB where
  name : String
  exitCode : Int
  deriving Repr, DecidableEq

/-- The status file read for a container (part_001 line 85). -/
def statusFileName (path cName : String) : String :=
  path ++ "/" ++ cName ++ ".status"

/-- The exit code derived from a status file content (part_001 lines 103-123):
newlines are stripped, the remainder parsed with strconv.Atoi; a parse error
substitutes 500; the int is then converted to int32. -/
def exitCodeOfContent (content : String) : Int :=
  match goAtoi (removeNewlines content) with
  | some n => int32wrap n
  | none => int32wrap 500

/-- Branch B of StatusHandler (part_001 lines 80-127), entered when the
per-job squeue query reports non-empty stderr. The filesystem is a partial
map from path to content; none models an os.Open or io.ReadAll error. On
such an error the handler writes a 500 response and returns at once, so no
container status at all is produced for the cycle (the whole result is none);
otherwise one terminated status per declared container is accumulated. -/
def branchB (readFile : String → Option String) (path : String) :
    List String → Option (List ContainerStatusB)
  | [] => some []
  | cName :: rest =>
    match readFile (statusFileName path cName) with
    | none => none
    | some content =>
      match branchB readFile path rest with
      | none => none
      | some tail => some (⟨cName, exitCodeOfContent content⟩ :: tail)

/-! ## LoadJIDs (aux.go lines 75-127): registry recovery -/

/-- One top-level entry of DataRootFolder as seen by recovery: its name,
whether it is a directory, and the contents of the three per-pod files
(none means the file is missing or unreadable). -/
structure DirEntry where
  name : String
  isDir : Bool
  jidFile : Option String
  startedFile : Option String
  finishedFile : Option String
  deriving Repr, DecidableEq

/-- parsingTimeFromString from aux.go, with time.Parse supplied as a partial
parse function into instants. On a field-count mismatch or a parse error the
zero instant is returned together with the error flag. -/
def parsingTimeFromString (timeParse : String → Option Int)
    (stringTime : String) : Int × Bool :=
  if (goFields stringTime).length ≠ 4 then (0, true)
  else
    match timeParse stringTime with
    | none => (0, true)
    | some t => (t, false)

/-- LoadJIDs from aux.go over the directory listing. Non-directories are
skipped. A directory whose JobID.jid cannot be read makes LoadJIDs return the
error immediately (Bool true), keeping only entries recovered so far; a
missing or unparseable timestamp file leaves the corresponding instant at
zero and recovery continues. -/
def loadJIDs (timeParse : String → Option Int) :
    List DirEntry → List (String × JidStruct) →
    List (String × JidStruct) × Bool
  | [], jids => (jids, false)
  | entry :: rest, jids =>
    if entry.isDir then
      match entry.jidFile with
      | none => (jids, true)
      | some jid =>
        let startedAt :=
          match entry.startedFile with
          | none => 0
          | some s => (parsingTimeFromString timeParse s).1
        let finishedAt :=
          match entry.finishedFile with
          | none => 0
          | some s => (parsingTimeFromString timeParse s).1
        loadJIDs timeParse rest
          (insertJID entry.name ⟨entry.name, jid, startedAt, finishedAt⟩ jids)
    else loadJIDs timeParse rest jids

/-! ## Concrete inputs used as witnesses and counterexamples -/

/-- The character list the env_data loop appends for a list of env entries. -/
def envPieceList : List EnvVar → List Char
  | [] => []
  | e :: rest => e.name.data ++ '=' :: (e.value.data ++ ',' :: envPieceList rest)

/-- A recovery directory whose JobID.jid is unreadable. -/
def badDirEntry : DirEntry := ⟨"bad", true, none, none, none⟩

/-- A recovery directory with a job id and no timestamp files. -/
def goodDirEntry : DirEntry := ⟨"good", true, some "42", none, none⟩

/-- Configuration for the script-synthesis evaluation: tsocks off, no command
prefix. -/
def mpiTestConfig : SlurmConfig := ⟨"/bin/bash", false, "", "", ""⟩

/-- Pod annotations carrying mpi-flags set to a value other than "true". -/
def mpiTestAnnotations : List (String × String) :=
  [("slurm-job.vk.io/mpi-flags", "-n 2")]

/-- A single container invocation as assembled by SubmitHandler. -/
def mpiTestCommands : List SingularityCommand :=
  [⟨"c1", ["singularity", "exec", "docker://ubuntu"]⟩]

/-! ## Helper lemmas -/

/-- A list that starts with p is at least as long as p. -/
theorem listStarts_length {p q : List Char} (h : listStarts p q = true) :
    p.length ≤ q.length := by
  induction p generalizing q with
  | nil => simp
  | cons a as ih =>
    cases q with
    | nil => simp [listStarts] at h
    | cons b bs =>
      simp only [listStarts, Bool.and_eq_true] at h
      have := ih h.2
      simp only [List.length_cons]
      omega

/-- Looking up a key just deleted from the registry yields nothing. -/
theorem lookupJID_removeKey_self (jids : List (String × JidStruct)) (uid : String) :
    lookupJID (removeKey uid jids) uid = none := by
  induction jids with
  | nil => rfl
  | cons kv rest ih =>
    obtain ⟨k, v⟩ := kv
    by_cases h : k = uid <;> simp [removeKey, lookupJID, h, ih]

/-- Deleting one key from the registry leaves every other key unchanged. -/
theorem lookupJID_removeKey_other (jids : List (String × JidStruct)) (uid k : String)
    (hne : k ≠ uid) :
    lookupJID (removeKey uid jids) k = lookupJID jids k := by
  induction jids with
  | nil => rfl
  | cons kv rest ih =>
    obtain ⟨k', v⟩ := kv
    by_cases h : k' = uid
    · subst h
      have hne' : ¬(k' = k) := fun hh => hne hh.symm
      simp [removeKey, lookupJID, ih, hne']
    · by_cases hk : k' = k
      · subst hk
        simp [removeKey, lookupJID, h, ih]
      · simp [removeKey, lookupJID, h, hk, ih]

/-! ## Claim theorems -/

/-- Claim C1 (code_bug evaluation): with empty stderr and no executor error,
SLURMBatchSubmit returns the newline-stripped stdout; when that output does
not match Submitted batch job (\d+), handleJID hits the nil-slice index
jid[1] and panics (none) instead of returning a SubmitError; when it does
match, the captured digits become the JID stored in the registry and written
to JobID.jid. -/
theorem handleJID_panics_on_unmatched_output :
    SLURMBatchSubmit "sbatch: error\n" "" false = Except.ok "sbatch: error" ∧
    handleJID "u1" "sbatch: error" "/data/ns-u1" [] = none ∧
    handleJID "u1" "Submitted batch job 12345" "/data/ns-u1" [] =
      some ([("u1", ⟨"u1", "12345", 0, 0⟩)], "/data/ns-u1/JobID.jid", "12345") :=
  ⟨rfl, by decide, by decide⟩

/-- Claim C2 (code_bug evaluation): with annotation slurm-job.vk.io/mpi-flags
present and not "true", the script produceSLURMScript writes contains no
mpiexec wrapping at all — the Go loop assigns the wrapped argv to a
per-iteration copy, leaving the commands unchanged — while the documented
behaviour (mpiWrapSpec) would prepend mpiexec -np $SLURM_NTASKS and the
flags to every container invocation. -/
theorem mpi_flags_loop_has_no_effect :
    lookupKey mpiTestAnnotations "slurm-job.vk.io/mpi-flags" = some "-n 2" ∧
    ("-n 2" : String) ≠ "true" ∧
    strContains
      (produceSLURMScriptString mpiTestConfig "/p" "uid0" mpiTestAnnotations ""
        mpiTestCommands) "mpiexec" = false ∧
    mpiLoopGo mpiTestAnnotations mpiTestCommands = mpiTestCommands ∧
    mpiWrapSpec mpiTestAnnotations mpiTestCommands =
      [⟨"c1", ["mpiexec", "-np", "$SLURM_NTASKS", "-n", "2",
               "singularity", "exec", "docker://ubuntu"]⟩] := by
  decide

/-- Claim C4: a Status call arriving strictly less than 10 seconds after the
completion instant of the most recent full poll cycle runs no squeue at all
and serves the cached response of that cycle unchanged. -/
theorem status_rate_limit_serves_cache {α : Type} (timeNow timer : Int)
    (cachedStatus : α) (pollCycle : α × Int)
    (h : timeNow - timer < 10 * 1000000000) :
    statusHandlerStep timeNow timer cachedStatus pollCycle =
      (cachedStatus, timer, cachedStatus, false) := by
  unfold statusHandlerStep
  rw [if_neg (by omega)]

/-- Witness for C4 at a concrete instant 3 ns after a cycle that cached the
response 0. -/
theorem status_rate_limit_serves_cache_w :
    statusHandlerStep (3 : Int) 0 (0 : Nat) ((7 : Nat), 99) = (0, 0, 0, false) :=
  status_rate_limit_serves_cache 3 0 0 (7, 99) (by norm_num)

/-- Claim C6: when scancel fails for a pod present in the registry,
deleteContainer returns the error and leaves both the registry and the
filesystem exactly as they were. -/
theorem delete_scancel_error_keeps_registry (scancelFails : String → Bool)
    (podUID path : String) (jids : List (String × JidStruct)) (fs : List String)
    (rec : JidStruct) (hlook : lookupJID jids podUID = some rec)
    (hfail : scancelFails rec.jid = true) :
    deleteContainer scancelFails podUID path jids fs = some (jids, fs, true) := by
  unfold deleteContainer
  rw [hlook]
  simp [hfail]

/-- Witness for C6 on a one-entry registry with a failing scancel. -/
theorem delete_scancel_error_keeps_registry_w :
    deleteContainer (fun _ => true) "u1" "/root"
        [("u1", ⟨"u1", "42", 0, 0⟩)] ["/root/u1/job.sh"] =
      some ([("u1", ⟨"u1", "42", 0, 0⟩)], ["/root/u1/job.sh"], true) :=
  delete_scancel_error_keeps_registry (fun _ => true) "u1" "/root"
    [("u1", ⟨"u1", "42", 0, 0⟩)] ["/root/u1/job.sh"] ⟨"u1", "42", 0, 0⟩
    (by decide) rfl

/-- Claim C7: the image token equals the image-root annotation value
concatenated with the container Image exactly when Image begins with "/" and
the annotation is present; in every other case the token is Image verbatim. -/
theorem submit_image_token_spec (image : String)
    (annotations : List (String × String)) :
    (∀ uri, goHasPfx image "/" = true →
      lookupKey annotations "slurm-job.vk.io/image-root" = some uri →
      submitImage image annotations = uri ++ image) ∧
    ((goHasPfx image "/" = false ∨
      lookupKey annotations "slurm-job.vk.io/image-root" = none) →
      submitImage image annotations = image) := by
  constructor
  · intro uri hpf hlook
    simp [submitImage, hpf, hlook]
  · intro h
    rcases h with h | h
    · simp [submitImage, h]
    · unfold submitImage
      rw [h]
      split <;> rfl

/-- Witness for C7: the absolute-path image with image-root /cvmfs resolves to
the concatenation; a bare image name passes through verbatim. -/
theorem submit_image_token_spec_w :
    submitImage "/img/tool.sif" [("slurm-job.vk.io/image-root", "/cvmfs")] =
      "/cvmfs/img/tool.sif" ∧
    submitImage "ubuntu" [("slurm-job.vk.io/image-root", "/cvmfs")] = "ubuntu" := by
  constructor
  · have h := (submit_image_token_spec "/img/tool.sif"
      [("slurm-job.vk.io/image-root", "/cvmfs")]).1 "/cvmfs" (by decide) (by decide)
    rw [h]
    decide
  · exact (submit_image_token_spec "ubuntu"
      [("slurm-job.vk.io/image-root", "/cvmfs")]).2 (Or.inl (by decide))

/-- Claim C9: a poll cycle builds its per-pod squeue invocation by reading the
registry record without an existence check; it survives exactly when every
requested pod UID is present, and the first missing entry crashes the handler
(nil dereference) rather than producing an error response. -/
theorem status_poll_requires_registry (jids : List (String × JidStruct))
    (uids : List String) :
    (statusPollPods jids uids).isSome =
      uids.all (fun uid => (lookupJID jids uid).isSome) := by
  induction uids with
  | nil => rfl
  | cons uid rest ih =>
    cases hl : lookupJID jids uid with
    | none => simp [statusPollPods, statusPodQuery, hl]
    | some rec =>
      cases hp : statusPollPods jids rest with
      | none =>
        have : rest.all (fun uid => (lookupJID jids uid).isSome) = false := by
          rw [← ih, hp]
          rfl
        simp [statusPollPods, statusPodQuery, hl, hp, this]
      | some cmds =>
        have : rest.all (fun uid => (lookupJID jids uid).isSome) = true := by
          rw [← ih, hp]
          rfl
        simp [statusPollPods, statusPodQuery, hl, hp, this]

/-- Claim C10: a successful deleteContainer removes exactly the subtree rooted
at path/podUID — a path survives iff it is neither that target nor strictly
below it — so the supplied path itself always survives, and the registry
entry for podUID is evicted in the same call while every other entry is
untouched. -/
theorem delete_removes_only_pod_subtree (scancelFails : String → Bool)
    (podUID path : String) (jids : List (String × JidStruct)) (fs : List String)
    (rec : JidStruct) (hlook : lookupJID jids podUID = some rec)
    (hok : scancelFails rec.jid = false) :
    deleteContainer scancelFails podUID path jids fs =
      some (removeKey podUID jids, removeAllFS (path ++ "/" ++ podUID) fs, false) ∧
    (∀ q, q ∈ removeAllFS (path ++ "/" ++ podUID) fs ↔
      q ∈ fs ∧ q ≠ path ++ "/" ++ podUID ∧
        listStarts (path ++ "/" ++ podUID ++ "/").data q.data = false) ∧
    (path ∈ fs → path ∈ removeAllFS (path ++ "/" ++ podUID) fs) ∧
    lookupJID (removeKey podUID jids) podUID = none ∧
    (∀ k, k ≠ podUID → lookupJID (removeKey podUID jids) k = lookupJID jids k) := by
  have hslash : ("/" : String).data = ['/'] := rfl
  have hmem : ∀ q, q ∈ removeAllFS (path ++ "/" ++ podUID) fs ↔
      q ∈ fs ∧ q ≠ path ++ "/" ++ podUID ∧
        listStarts (path ++ "/" ++ podUID ++ "/").data q.data = false := by
    intro q
    simp only [removeAllFS, List.mem_filter, Bool.not_eq_true', Bool.or_eq_false_iff,
      decide_eq_false_iff_not, ne_eq]
  refine ⟨?_, hmem, ?_, lookupJID_removeKey_self jids podUID,
    fun k hk => lookupJID_removeKey_other jids podUID k hk⟩
  · unfold deleteContainer
    rw [hlook]
    simp [hok]
  · intro hp
    have hlen : (path ++ "/" ++ podUID).data.length =
        path.data.length + 1 + podUID.data.length := by
      simp [String.data_append, hslash]
      omega
    refine (hmem path).2 ⟨hp, ?_, ?_⟩
    · intro h
      have := congrArg (fun s => s.data.length) h
      simp only at this
      omega
    · cases hS : listStarts (path ++ "/" ++ podUID ++ "/").data path.data with
      | false => rfl
      | true =>
        exfalso
        have hle := listStarts_length hS
        have hlen2 : (path ++ "/" ++ podUID ++ "/").data.length =
            path.data.length + 1 + podUID.data.length + 1 := by
          simp [String.data_append, hslash]
          omega
        omega

/-- Witness for C10 on a two-entry registry and a four-path filesystem: the
pod directory and its file go, the root path and the other pod survive, and
only the deleted pod leaves the registry. -/
theorem delete_removes_only_pod_subtree_w :
    deleteContainer (fun _ => false) "u1" "/root"
        [("u1", ⟨"u1", "42", 0, 0⟩), ("u2", ⟨"u2", "43", 0, 0⟩)]
        ["/root", "/root/u1", "/root/u1/job.sh", "/root/u2/job.sh"] =
      some ([("u2", ⟨"u2", "43", 0, 0⟩)], ["/root", "/root/u2/job.sh"], false) := by
  have h := (delete_removes_only_pod_subtree (fun _ => false) "u1" "/root"
    [("u1", ⟨"u1", "42", 0, 0⟩), ("u2", ⟨"u2", "43", 0, 0⟩)]
    ["/root", "/root/u1", "/root/u1/job.sh", "/root/u2/job.sh"]
    ⟨"u1", "42", 0, 0⟩ (by decide) rfl).1
  rw [h]
  decide

/-- Claim C3 counterexample: with one declared container whose status file
cannot be opened, Branch B aborts the whole handler (none) instead of
emitting a terminated status with the synthesized exit code 500. -/
theorem branchB_io_error_aborts_cycle :
    branchB (fun _ => none) "/p" ["c1"] = none ∧
    branchB (fun _ => none) "/p" ["c1"] ≠ some [⟨"c1", 500⟩] := by
  decide

/-- Claim C3 amended: when every declared container status file is readable,
Branch B emits exactly one terminated status per container, the exit code
being the Atoi of the newline-stripped content with 500 substituted on a
parse failure; but when any status file fails to open or read, the cycle
aborts with an error response and no container status is produced at all. -/
theorem branchB_per_container_statuses (readFile : String → Option String)
    (path : String) (containers : List String) :
    (containers.all (fun c => (readFile (statusFileName path c)).isSome) = true →
      branchB readFile path containers =
        some (containers.map (fun c =>
          ⟨c, exitCodeOfContent ((readFile (statusFileName path c)).getD "")⟩))) ∧
    (containers.all (fun c => (readFile (statusFileName path c)).isSome) = false →
      branchB readFile path containers = none) := by
  induction containers with
  | nil => exact ⟨fun _ => rfl, fun h => by simp at h⟩
  | cons c rest ih =>
    constructor
    · intro h
      simp only [List.all_cons, Bool.and_eq_true] at h
      obtain ⟨h1, h2⟩ := h
      cases hr : readFile (statusFileName path c) with
      | none => rw [hr] at h1; simp at h1
      | some content =>
        have htail := ih.1 h2
        simp [branchB, hr, htail]
    · intro h
      cases hr : readFile (statusFileName path c) with
      | none => simp [branchB, hr]
      | some content =>
        have hfail : rest.all (fun c => (readFile (statusFileName path c)).isSome)
            = false := by
          simp only [List.all_cons, Bool.and_eq_true] at h
          rcases Bool.and_eq_false_iff.1 h with h' | h'
          · rw [hr] at h'; simp at h'
          · exact h'
        have htail := ih.2 hfail
        simp [branchB, hr, htail]

/-- Witness for C3 on a filesystem holding only /p/c1.status with content 0:
the one-container pod yields exit code 0, while a two-container pod whose
second file is missing aborts the cycle. -/
theorem branchB_per_container_statuses_w :
    branchB (fun s => if s = "/p/c1.status" then some "0\n" else none)
        "/p" ["c1"] = some [⟨"c1", 0⟩] ∧
    branchB (fun s => if s = "/p/c1.status" then some "0\n" else none)
        "/p" ["c1", "c2"] = none := by
  constructor
  · have h := (branchB_per_container_statuses
      (fun s => if s = "/p/c1.status" then some "0\n" else none) "/p" ["c1"]).1
      (by decide)
    rw [h]
    decide
  · exact (branchB_per_container_statuses
      (fun s => if s = "/p/c1.status" then some "0\n" else none) "/p"
      ["c1", "c2"]).2 (by decide)

/-- The env_data loop appends exactly the piece list for the entries. -/
theorem envData_data (env : List EnvVar) : ∀ acc : String,
    (envData env acc).data = acc.data ++ envPieceList env := by
  induction env with
  | nil => intro acc; simp [envData, envPieceList]
  | cons e rest ih =>
    intro acc
    have h1 : ("=" : String).data = ['='] := rfl
    have h2 : ("," : String).data = [','] := rfl
    rw [envData, ih]
    simp [String.data_append, envPieceList, h1, h2]

/-- The piece list of a nonempty env list is the joined token followed by the
trailing comma. -/
theorem envPieceList_eq_join (e : EnvVar) (env : List EnvVar) :
    envPieceList (e :: env) = (joinEnvs (e :: env)).data ++ [','] := by
  induction env generalizing e with
  | nil =>
    have h1 : ("=" : String).data = ['='] := rfl
    simp [envPieceList, joinEnvs, String.data_append, h1]
  | cons f rest ih =>
    have h1 : ("=" : String).data = ['='] := rfl
    have h2 : ("," : String).data = [','] := rfl
    rw [envPieceList, ih f]
    simp [joinEnvs, String.data_append, h1, h2]

/-- The joined env token of a nonempty list is never the empty string. -/
theorem joinEnvs_data_length (e : EnvVar) (env : List EnvVar) :
    1 ≤ (joinEnvs (e :: env)).data.length := by
  cases env with
  | nil =>
    have h1 : ("=" : String).data = ['='] := rfl
    simp [joinEnvs, String.data_append, h1]
    omega
  | cons f rest =>
    have h1 : ("=" : String).data = ['='] := rfl
    have h2 : ("," : String).data = [','] := rfl
    simp [joinEnvs, String.data_append, h1, h2]
    omega

/-- Stripping the trailing comma of the env_data accumulation yields exactly
the comma-joined token. -/
theorem stripComma_envData (e : EnvVar) (env : List EnvVar) :
    stripComma (envData (e :: env) "") = joinEnvs (e :: env) := by
  have hd : (envData (e :: env) "").data = (joinEnvs (e :: env)).data ++ [','] := by
    rw [envData_data, envPieceList_eq_join]
    rfl
  have hcond : (envData (e :: env) "").data ≠ [] ∧
      (envData (e :: env) "").data.getLast? = some ',' := by
    rw [hd]
    exact ⟨by simp, List.getLast?_concat _⟩
  unfold stripComma
  rw [if_pos hcond, hd, List.dropLast_concat]

/-- Claim C8 counterexample: prepareEnvs on a two-entry env list returns a
three-token vector whose first token is the empty string left by
make([]string, 1), not the two-token vector the claim describes. -/
theorem prepare_envs_leading_empty_token :
    prepareEnvs [⟨"A", "1"⟩, ⟨"B", "2"⟩] = ["", "--env", "A=1,B=2"] ∧
    prepareEnvs [⟨"A", "1"⟩, ⟨"B", "2"⟩] ≠ ["--env", "A=1,B=2"] := by
  decide

/-- Claim C8 amended: prepareEnvs is empty for an empty env list, and for a
nonempty list returns exactly the tokens "", --env and the comma-joined
NAME=VALUE pairs in list order with no trailing comma; as a pure function of
the env list it is deterministic. -/
theorem prepare_envs_shape (env : List EnvVar) :
    (env = [] → prepareEnvs env = []) ∧
    (env ≠ [] → prepareEnvs env = ["", "--env", joinEnvs env]) := by
  constructor
  · intro h
    subst h
    rfl
  · intro h
    cases env with
    | nil => exact absurd rfl h
    | cons e rest =>
      have hstrip := stripComma_envData e rest
      have hne : joinEnvs (e :: rest) ≠ "" := by
        intro hh
        have hlen := joinEnvs_data_length e rest
        rw [hh] at hlen
        simp at hlen
      simp [prepareEnvs, hstrip, hne]

/-- Witness for C8 at a one-entry env list and the empty list. -/
theorem prepare_envs_shape_w :
    prepareEnvs [⟨"C", "3"⟩] = ["", "--env", "C=3"] ∧
    prepareEnvs ([] : List EnvVar) = [] := by
  constructor
  · have h := (prepare_envs_shape [⟨"C", "3"⟩]).2 (by decide)
    rw [h]
    decide
  · exact (prepare_envs_shape []).1 rfl

/-- Claim C5 counterexample: a directory with an unreadable JobID.jid listed
before a healthy directory makes recovery return the error with an empty
registry — the healthy directory is not recovered, contradicting the claim
that only the failing entry is lost. -/
theorem loadJIDs_abort_skips_later_dirs :
    loadJIDs (fun _ => none) [badDirEntry, goodDirEntry] [] = ([], true) ∧
    lookupJID (loadJIDs (fun _ => none) [badDirEntry, goodDirEntry] []).1
      "good" = none := by
  decide

/-- Claim C5 amended: a directory with an unreadable JobID.jid aborts the
recovery scan — LoadJIDs returns the error, directories already processed
stay recovered and later directories are not scanned at all — while a
directory whose JobID.jid is present is recovered even when StartedAt.time
or FinishedAt.time is missing, the corresponding instant being the zero
instant. -/
theorem loadJIDs_jid_fatal_timestamps_zero :
    (∀ (timeParse : String → Option Int) (good : List DirEntry) (bad : DirEntry)
        (rest : List DirEntry) (jids : List (String × JidStruct)),
      (loadJIDs timeParse good jids).2 = false →
      bad.isDir = true → bad.jidFile = none →
      loadJIDs timeParse (good ++ bad :: rest) jids =
        ((loadJIDs timeParse good jids).1, true)) ∧
    (∀ (timeParse : String → Option Int) (e : DirEntry) (j : String)
        (jids : List (String × JidStruct)),
      e.isDir = true → e.jidFile = some j →
      ∃ st en, loadJIDs timeParse [e] jids =
          (insertJID e.name ⟨e.name, j, st, en⟩ jids, false) ∧
        (e.startedFile = none → st = 0) ∧
        (e.finishedFile = none → en = 0)) := by
  constructor
  · intro timeParse good bad rest jids hgood hdir hjid
    induction good generalizing jids with
    | nil =>
      simp only [List.nil_append, loadJIDs, hdir, hjid]
      rfl
    | cons e g ihg =>
      cases he : e.isDir with
      | false =>
        rw [List.cons_append, loadJIDs, if_neg (by simp [he])]
        rw [loadJIDs, if_neg (by simp [he])] at hgood ⊢
        exact ihg jids hgood
      | true =>
        cases hej : e.jidFile with
        | none =>
          rw [loadJIDs, if_pos he, hej] at hgood
          simp at hgood
        | some jv =>
          rw [List.cons_append, loadJIDs, if_pos he, hej]
          rw [loadJIDs, if_pos he, hej] at hgood ⊢
          exact ihg _ hgood
  · intro timeParse e j jids hdir hjid
    have hmain : loadJIDs timeParse [e] jids =
        (insertJID e.name ⟨e.name, j,
          (match e.startedFile with
           | none => 0
           | some s => (parsingTimeFromString timeParse s).1),
          (match e.finishedFile with
           | none => 0
           | some s => (parsingTimeFromString timeParse s).1)⟩ jids, false) := by
      rw [loadJIDs, if_pos hdir, hjid]
      rfl
    refine ⟨_, _, hmain, fun hs => ?_, fun hf => ?_⟩
    · rw [hs]
    · rw [hf]

/-- Witness for C5: the healthy directory before the broken one stays
recovered with both instants zero, and the scan returns the error without
recovering anything after the broken directory. -/
theorem loadJIDs_jid_fatal_timestamps_zero_w :
    loadJIDs (fun _ => none) [goodDirEntry, badDirEntry] [] =
      ((loadJIDs (fun _ => none) [goodDirEntry] []).1, true) ∧
    loadJIDs (fun _ => none) [goodDirEntry] [] =
      (insertJID "good" ⟨"good", "42", 0, 0⟩ [], false) := by
  constructor
  · exact loadJIDs_jid_fatal_timestamps_zero.1 (fun _ => none) [goodDirEntry]
      badDirEntry [] [] (by decide) (by decide) (by decide)
  · obtain ⟨st, en, h1, h2, h3⟩ := loadJIDs_jid_fatal_timestamps_zero.2
      (fun _ => none) goodDirEntry "42" [] (by decide) (by decide)
    rw [h2 (by decide), h3 (by decide)] at h1
    exact h1

end InterLinkSlurm
